import Mathlib

/-!
Verification development for the JanusGraph Kubernetes asset platform.

The repository collects Kubernetes cluster resources, imports them as
vertices and edges into a JanusGraph database, and visualizes them through
a React frontend. The frontend pages (Assets, QueryInterface, AttackPaths,
GraphVisualization) and the API service layer are embedded directly from
the TypeScript sources. The backend services (k8s_collector.py,
graph_builder.py, janusgraph_client.py) are referenced by the sources and
documentation but their code is not part of the provided tree; where a
property depends on them, the corresponding definition is modelled from
the specification and marked as such in its doc comment.
-/

namespace JanusK8s

/-! ### Strings: JavaScript-style helpers used by the frontend embedding -/

/-- Whether the first character list is a leading segment of the second
(embeds the positional comparison underlying JavaScript includes). -/
def charsStartWith : List Char → List Char → Bool
  | [], _ => true
  | _ :: _, [] => false
  | c :: cs, d :: ds => c == d && charsStartWith cs ds

/-- Whether needle occurs contiguously inside hay. -/
def charsContain (hay needle : List Char) : Bool :=
  match hay with
  | [] => needle.isEmpty
  | _ :: t => charsStartWith needle hay || charsContain t needle

/-- JavaScript substring containment (String.prototype.includes). -/
def strIncludes (hay needle : String) : Bool :=
  charsContain hay.data needle.data

/-- JavaScript "value or default": a missing value or the empty string
falls back to the default, mirroring the falsy cases of the
logical-or idiom used in the frontend sources. -/
def jsOrStr (v : Option String) (d : String) : String :=
  match v with
  | some s => if s == "" then d else s
  | none => d

/-! ### Data model

Embedded from the TypeScript type declarations: an Asset is one
normalized Kubernetes resource; kind-specific optional fields of the
per-kind asset interfaces (PodAsset, ServiceAsset, DeploymentAsset,
SecretAsset, RoleBindingAsset, ...) are flattened into optional fields
of a single record, absent fields being none. Label, annotation and
selector maps are association lists of string pairs. -/

structure Asset where
  id : String
  name : String
  nspace : Option String := none
  kind : String
  labels : List (String × String) := []
  annotations : List (String × String) := []
  selector : Option (List (String × String)) := none
  node_name : Option String := none
  service_account : Option String := none
  role_ref : Option String := none
  subjects : List String := []
  data_keys : Option (List String) := none
  type : Option String := none
  created_at : String := ""
deriving DecidableEq, Repr

/-! ### Assets page filter (frontend/src/pages/Assets.tsx) -/

/-- The search predicate of the Assets page: the asset's name, or its
namespace when present, contains the search term case-insensitively. -/
def searchMatch (term : String) (a : Asset) : Bool :=
  strIncludes a.name.toLower term.toLower ||
    (match a.nspace with
     | some ns => strIncludes ns.toLower term.toLower
     | none => false)

/-- The filter effect of the Assets page: first narrow by kind when the
selected type is not the sentinel all, then by the search term when it
is non-empty. -/
def filterAssets (assets : List Asset) (searchTerm selectedType : String) :
    List Asset :=
  let byType :=
    if selectedType != "all" then
      assets.filter (fun a => a.kind == selectedType)
    else assets
  if searchTerm != "" then byType.filter (searchMatch searchTerm) else byType

/-! ### Query history (frontend/src/pages/QueryInterface.tsx) -/

/-- One successful query execution's effect on the history list: a query
already present leaves the history unchanged; otherwise it is prepended
to the first nine existing entries. -/
def updateHistory (history : List String) (q : String) : List String :=
  if history.contains q then history else q :: history.take 9

/-- The history after a sequence of successful executions, starting empty. -/
def runQueries (qs : List String) : List String :=
  qs.foldl updateHistory []

/-! ### Visualization helpers (frontend/src/services/api.ts)

A raw Gremlin result object is represented by the ordered list of its
keys; an edge object's label array is represented by its first element
when one exists. -/

/-- The type inferred for a node object: the first key other than id and
name, with the falsy-fallback to Unknown. -/
def inferNodeType (keys : List String) : String :=
  jsOrStr (keys.find? (fun k => !(k == "id") && !(k == "name"))) "Unknown"

/-- Color map of the thirteen resource kinds. -/
def nodeColorMap : List (String × String) :=
  [("Pod", "#61dafb"), ("Service", "#8884d8"), ("Deployment", "#82ca9d"),
   ("Namespace", "#ffc658"), ("Node", "#ff7c7c"), ("Secret", "#d084d0"),
   ("ConfigMap", "#ffb347"), ("Role", "#8dd1e1"), ("RoleBinding", "#d084d0"),
   ("ClusterRole", "#87ceeb"), ("ClusterRoleBinding", "#dda0dd"),
   ("ServiceAccount", "#f0e68c"), ("Ingress", "#98fb98")]

/-- Size map of the thirteen resource kinds. -/
def nodeSizeMap : List (String × Nat) :=
  [("Pod", 8), ("Service", 10), ("Deployment", 12), ("Namespace", 15),
   ("Node", 14), ("Secret", 6), ("ConfigMap", 6), ("Role", 8),
   ("RoleBinding", 8), ("ClusterRole", 10), ("ClusterRoleBinding", 10),
   ("ServiceAccount", 7), ("Ingress", 10)]

/-- Color map of the eight edge labels. -/
def edgeColorMap : List (String × String) :=
  [("runs_on", "#ff9999"), ("uses", "#99ccff"), ("selects", "#99ff99"),
   ("manages", "#ffcc99"), ("in_namespace", "#cccccc"),
   ("references", "#ff99cc"), ("grants_to", "#ccffcc"),
   ("routes_to", "#ffccff")]

/-- getNodeColor of api.ts, on the node's key list. -/
def getNodeColor (keys : List String) : String :=
  (nodeColorMap.lookup (inferNodeType keys)).getD "#cccccc"

/-- getNodeSize of api.ts, on the node's key list. -/
def getNodeSize (keys : List String) : Nat :=
  (nodeSizeMap.lookup (inferNodeType keys)).getD 8

/-- getEdgeColor of api.ts, on the first element of the edge's label
array (none when the array is absent or empty). -/
def getEdgeColor (labelFirst : Option String) : String :=
  (edgeColorMap.lookup (jsOrStr labelFirst "connected")).getD "#cccccc"

/-! ### Graph builder

Modelled from the spec: graph_builder.py is not part of the provided
tree. The spec fixes an eight-label edge vocabulary and the relationship
rules: a Pod's node_name yields a runs_on edge to the matching Node, a
Pod's service_account yields a uses edge, selector-carrying sources
(Service, Deployment) yield selector-match edges to Pods whose label map
is a superset of the selector, every namespaced asset yields an
in_namespace edge to its Namespace, and RBAC bindings yield references
edges to their role and grants_to edges to their subjects. -/

/-- The fixed edge-label vocabulary as an enumerated type. -/
inductive EdgeLabel
  | runs_on
  | uses
  | selects
  | manages
  | in_namespace
  | references
  | grants_to
  | routes_to
deriving DecidableEq, Repr

/-- The string written to the store for each edge label. -/
def edgeLabelStr : EdgeLabel → String
  | .runs_on => "runs_on"
  | .uses => "uses"
  | .selects => "selects"
  | .manages => "manages"
  | .in_namespace => "in_namespace"
  | .references => "references"
  | .grants_to => "grants_to"
  | .routes_to => "routes_to"

/-- The eight legal edge-label strings. -/
def edgeLabelVocab : List String :=
  ["runs_on", "uses", "selects", "manages", "in_namespace",
   "references", "grants_to", "routes_to"]

/-- A directed labeled edge between two vertices, identified by the
endpoint asset identifiers. -/
structure Edge where
  src : String
  dst : String
  label : EdgeLabel
deriving DecidableEq, Repr

/-- Modelled from the spec: the label-match evaluation of
graph_builder.py. The target label map is a superset of the selector
map when every selector pair is bound identically among the labels. -/
def matchesSelector (sel labels : List (String × String)) : Bool :=
  sel.all (fun kv => labels.lookup kv.1 == some kv.2)

/-- Whether source asset a selects target asset b: a carries a selector
map and b's labels are a superset of it. -/
def selectorMatches (a b : Asset) : Bool :=
  match a.selector with
  | some sel => matchesSelector sel b.labels
  | none => false

/-- Modelled from the spec: runs_on edges of graph_builder.py. A Pod
with a node_name points at every Node of that name. -/
def runsOnEdges (a : Asset) (batch : List Asset) : List Edge :=
  (batch.filter (fun b =>
      a.kind == "Pod" && b.kind == "Node" && some b.name == a.node_name)).map
    (fun b => { src := a.id, dst := b.id, label := .runs_on })

/-- Modelled from the spec: uses edges of graph_builder.py. A Pod with a
service_account points at the ServiceAccount of that name in the same
namespace. -/
def usesEdges (a : Asset) (batch : List Asset) : List Edge :=
  (batch.filter (fun b =>
      a.kind == "Pod" && b.kind == "ServiceAccount" &&
        some b.name == a.service_account && b.nspace == a.nspace)).map
    (fun b => { src := a.id, dst := b.id, label := .uses })

/-- Modelled from the spec: selector-match edges of graph_builder.py. A
Service or Deployment carrying a selector points at every Pod whose
label map is a superset of that selector. -/
def selectsEdges (a : Asset) (batch : List Asset) : List Edge :=
  (batch.filter (fun b =>
      (a.kind == "Service" || a.kind == "Deployment") && b.kind == "Pod" &&
        selectorMatches a b)).map
    (fun b => { src := a.id, dst := b.id, label := .selects })

/-- Modelled from the spec: in_namespace edges of graph_builder.py.
Every namespaced asset points at the Namespace asset of that name. -/
def inNamespaceEdges (a : Asset) (batch : List Asset) : List Edge :=
  (batch.filter (fun b =>
      !(a.kind == "Namespace") && b.kind == "Namespace" &&
        some b.name == a.nspace)).map
    (fun b => { src := a.id, dst := b.id, label := .in_namespace })

/-- Modelled from the spec: references edges of graph_builder.py. An
RBAC binding points at the Role or ClusterRole its role_ref names. -/
def referencesEdges (a : Asset) (batch : List Asset) : List Edge :=
  (batch.filter (fun b =>
      (a.kind == "RoleBinding" || a.kind == "ClusterRoleBinding") &&
        (b.kind == "Role" || b.kind == "ClusterRole") &&
        some b.name == a.role_ref)).map
    (fun b => { src := a.id, dst := b.id, label := .references })

/-- Modelled from the spec: grants_to edges of graph_builder.py. An
RBAC binding points at every ServiceAccount among its subjects. -/
def grantsToEdges (a : Asset) (batch : List Asset) : List Edge :=
  (batch.filter (fun b =>
      (a.kind == "RoleBinding" || a.kind == "ClusterRoleBinding") &&
        b.kind == "ServiceAccount" && a.subjects.contains b.name)).map
    (fun b => { src := a.id, dst := b.id, label := .grants_to })

/-- The edges derived from one asset against the whole batch. -/
def edgesForAsset (a : Asset) (batch : List Asset) : List Edge :=
  runsOnEdges a batch ++ usesEdges a batch ++ selectsEdges a batch ++
    inNamespaceEdges a batch ++ referencesEdges a batch ++
    grantsToEdges a batch

/-- Modelled from the spec: the edge set graph_builder.py derives from
one collection pass's asset batch. -/
def buildEdges (batch : List Asset) : List Edge :=
  batch.flatMap (fun a => edgesForAsset a batch)

/-! ### Graph client: upsert

Modelled from the spec: janusgraph_client.py is not part of the provided
tree. The vertex store keys logical vertices by asset identifier; an
upsert replaces the vertex carrying the incoming identifier when one
exists and appends it otherwise. -/

/-- Upsert one vertex into the store by identifier. -/
def upsertVertex (vs : List Asset) (v : Asset) : List Asset :=
  if vs.any (fun w => w.id == v.id) then
    vs.map (fun w => if w.id == v.id then v else w)
  else vs ++ [v]

/-! ### Kubernetes collector

Modelled from the spec: k8s_collector.py is not part of the provided
tree. One collection pass iterates the configured resource kinds; a kind
whose listing fails contributes its error message to the recorded
errors, all succeeding kinds contribute their assets. -/

/-- The outcome of one collection pass: the assets of the succeeding
kinds and the errors of the failing ones. -/
structure CollectResult where
  assets : List Asset
  errors : List String
deriving DecidableEq, Repr

/-- Modelled from the spec: one collection pass of k8s_collector.py over
the configured kinds, with the partial-success policy. -/
def collect (listKind : String → Except String (List Asset))
    (kinds : List String) : CollectResult :=
  { assets := kinds.flatMap (fun k =>
      match listKind k with
      | .ok as => as
      | .error _ => [])
    errors := kinds.filterMap (fun k =>
      match listKind k with
      | .ok _ => none
      | .error e => some e) }

/-- A raw Kubernetes Secret as the cluster API returns it: metadata plus
the credential data map from key names to values. -/
structure K8sSecret where
  name : String
  nspace : Option String := none
  labels : List (String × String) := []
  annotations : List (String × String) := []
  secret_type : String := "Opaque"
  data : List (String × String) := []
  created_at : String := ""
deriving DecidableEq, Repr

/-- Modelled from the spec: the Secret normalization of k8s_collector.py.
The produced Asset carries only the key names of the data map, never the
underlying values, and its identifier is the kind, namespace and name. -/
def collectSecret (s : K8sSecret) : Asset :=
  { id := "Secret:" ++ (s.nspace.getD "") ++ ":" ++ s.name
    name := s.name
    nspace := s.nspace
    kind := "Secret"
    labels := s.labels
    annotations := s.annotations
    data_keys := some (s.data.map Prod.fst)
    type := some s.secret_type
    created_at := s.created_at }

/-! ### Attack paths -/

/-- One hop of an attack path (types.ts AttackStep). -/
structure AttackStep where
  node_id : String
  node_type : String
  node_name : String
  description : String
  risk_level : String
deriving DecidableEq, Repr

/-- A derived attack path (types.ts AttackPath). The likelihood scoring
policy is left open by the spec; only its carrier matters here. -/
structure AttackPath where
  id : String
  source : String
  target : String
  steps : List AttackStep
  total_risk : String
  likelihood : Rat
deriving DecidableEq, Repr

/-- Modelled from the spec: the path enumeration of get_attack_paths in
janusgraph_client.py, a traversal over existing vertices and edges whose
paths run from one stored vertex to another; each enumerated path's
source and target fields carry the endpoint vertex names. -/
def enumerateAttackPaths (vs : List Asset) (es : List Edge) :
    List AttackPath :=
  es.filterMap (fun e =>
    match vs.find? (fun v => v.id == e.src),
        vs.find? (fun v => v.id == e.dst) with
    | some sv, some tv =>
        some { id := e.src ++ "-" ++ e.dst
               source := sv.name
               target := tv.name
               steps := []
               total_risk := "LOW"
               likelihood := 0 }
    | _, _ => none)

/-- Whether an optional endpoint filter accepts a value: an absent
filter accepts everything. -/
def optMatches (o : Option String) (x : String) : Bool :=
  match o with
  | some s => x == s
  | none => true

/-- Modelled from the spec: get_attack_paths of janusgraph_client.py.
Optional source and target filters narrow the enumerated paths; a filter
matching nothing yields the empty list as a successful result, never an
error. -/
def getAttackPathsOp (vs : List Asset) (es : List Edge)
    (source target : Option String) : Except String (List AttackPath) :=
  .ok (((enumerateAttackPaths vs es).filter
      (fun p => optMatches source p.source)).filter
      (fun p => optMatches target p.target))

/-- The outcome kind of a frontend status message. -/
inductive MessageType
  | success
  | error
deriving DecidableEq, Repr

/-- The state update of fetchAttackPaths in
frontend/src/pages/AttackPaths.tsx: a successful response replaces the
path list and posts a success message whether or not the list is empty;
a failed request keeps the previous paths and posts an error message. -/
def fetchAttackPathsUpdate (prev : List AttackPath)
    (res : Except String (List AttackPath)) :
    List AttackPath × MessageType :=
  match res with
  | .ok ps => (ps, .success)
  | .error _ => (prev, .error)

/-! ### Concrete fixtures used by the witnesses -/

/-- A Service selecting app x (spec section 8's example). -/
def svcX : Asset :=
  { id := "Service:default:svc-x", name := "svc-x", nspace := some "default"
    kind := "Service", selector := some [("app", "x")] }

/-- A Pod labeled app x, env prod (spec section 8's example). -/
def podX : Asset :=
  { id := "Pod:default:pod-x", name := "pod-x", nspace := some "default"
    kind := "Pod", labels := [("app", "x"), ("env", "prod")]
    node_name := some "node-1" }

/-- A Pod labeled app y (spec section 8's example). -/
def podY : Asset :=
  { id := "Pod:default:pod-y", name := "pod-y", nspace := some "default"
    kind := "Pod", labels := [("app", "y")] }

/-- A cluster Node fixture. -/
def nodeOne : Asset :=
  { id := "Node::node-1", name := "node-1", kind := "Node" }

/-- A fixture listing in which the Secret kind is forbidden and every
other kind yields one asset. -/
def listingFixture (k : String) : Except String (List Asset) :=
  if k == "Secret" then .error "permission denied"
  else .ok [{ id := k ++ ":default:a", name := "a", nspace := some "default"
              kind := k }]

/-- A raw Secret fixture. -/
def secretA : K8sSecret :=
  { name := "db-cred", nspace := some "default"
    data := [("user", "admin"), ("pass", "hunter2")] }

/-- The same Secret with the same key names but different credential
values. -/
def secretB : K8sSecret :=
  { name := "db-cred", nspace := some "default"
    data := [("user", "alice"), ("pass", "s3cret")] }

/-! ## Helper lemmas -/

/-- An association-list lookup misses every key outside the key column. -/
theorem lookup_eq_none_of_not_mem_keys {β : Type} {l : List (String × β)}
    {k : String} (h : k ∉ l.map Prod.fst) : l.lookup k = none := by
  induction l with
  | nil => rfl
  | cons p t ih =>
    rcases p with ⟨k', b⟩
    simp only [List.map_cons, List.mem_cons, not_or] at h
    obtain ⟨h1, h2⟩ := h
    rw [List.lookup_cons]
    have hb : (k == k') = false := beq_eq_false_iff_ne.mpr h1
    rw [hb]
    exact ih h2

/-- One history update keeps the history duplicate-free and within ten
entries. -/
theorem updateHistory_inv {h : List String} {q : String}
    (hnd : h.Nodup) (hlen : h.length ≤ 10) :
    (updateHistory h q).Nodup ∧ (updateHistory h q).length ≤ 10 := by
  unfold updateHistory
  by_cases hc : h.contains q = true
  · rw [if_pos hc]
    exact ⟨hnd, hlen⟩
  · rw [if_neg hc]
    refine ⟨List.nodup_cons.mpr ⟨?_, ?_⟩, ?_⟩
    · exact fun hm => hc (List.elem_eq_true_of_mem (List.mem_of_mem_take hm))
    · exact List.Nodup.sublist (List.take_sublist 9 h) hnd
    · have := min_le_left 9 h.length
      simp only [List.length_cons, List.length_take]
      omega

/-- The history invariant holds after any sequence of updates from an
invariant-respecting start. -/
theorem foldl_updateHistory_inv (qs : List String) :
    ∀ h : List String, h.Nodup → h.length ≤ 10 →
      (qs.foldl updateHistory h).Nodup ∧
        (qs.foldl updateHistory h).length ≤ 10 := by
  induction qs with
  | nil => exact fun h hnd hlen => ⟨hnd, hlen⟩
  | cons q qs ih =>
    intro h hnd hlen
    have hstep := updateHistory_inv (q := q) hnd hlen
    exact ih _ hstep.1 hstep.2

/-! ## Claims -/

/-- Claim C10: the visualization helpers are total with fixed defaults:
a node whose inferred type is outside the thirteen mapped kinds gets
color cccccc and size 8, and an edge whose effective label is outside
the eight mapped labels gets color cccccc. -/
theorem c10_defaults (keys : List String) (lf : Option String)
    (hn : inferNodeType keys ∉ nodeColorMap.map Prod.fst)
    (he : jsOrStr lf "connected" ∉ edgeColorMap.map Prod.fst) :
    getNodeColor keys = "#cccccc" ∧ getNodeSize keys = 8 ∧
      getEdgeColor lf = "#cccccc" := by
  have hsizes : nodeSizeMap.map Prod.fst = nodeColorMap.map Prod.fst := by
    decide
  refine ⟨?_, ?_, ?_⟩
  · unfold getNodeColor
    rw [lookup_eq_none_of_not_mem_keys hn]
    rfl
  · unfold getNodeSize
    rw [lookup_eq_none_of_not_mem_keys (hsizes ▸ hn)]
    rfl
  · unfold getEdgeColor
    rw [lookup_eq_none_of_not_mem_keys he]
    rfl

/-- Witness for C10 at a node object with keys id and foo and an edge
object with no label array. -/
theorem c10_defaults_witness :
    (inferNodeType ["id", "foo"] ∉ nodeColorMap.map Prod.fst) ∧
      (jsOrStr none "connected" ∉ edgeColorMap.map Prod.fst) ∧
      (getNodeColor ["id", "foo"] = "#cccccc" ∧
        getNodeSize ["id", "foo"] = 8 ∧ getEdgeColor none = "#cccccc") :=
  ⟨by decide, by decide, c10_defaults ["id", "foo"] none (by decide) (by decide)⟩

/-- Claim C8: the Assets page filter retains exactly the assets passing
both filters: a non-all selected type forces the kind, a non-empty
search term forces a case-insensitive name or namespace match, and the
neutral filter values leave the list untouched. -/
theorem c8_filterAssets (assets : List Asset) (searchTerm selectedType : String) :
    (selectedType ≠ "all" →
      ∀ a ∈ filterAssets assets searchTerm selectedType,
        a.kind = selectedType) ∧
    (searchTerm ≠ "" →
      ∀ a ∈ filterAssets assets searchTerm selectedType,
        strIncludes a.name.toLower searchTerm.toLower = true ∨
          ∃ ns, a.nspace = some ns ∧
            strIncludes ns.toLower searchTerm.toLower = true) ∧
    filterAssets assets "" "all" = assets := by
  refine ⟨?_, ?_, ?_⟩
  · intro hty a ha
    have hty' : (selectedType != "all") = true := bne_iff_ne.mpr hty
    simp only [filterAssets, hty', if_true] at ha
    by_cases hst : (searchTerm != "") = true
    · rw [if_pos hst] at ha
      have := (List.mem_filter.mp (List.mem_filter.mp ha).1).2
      exact beq_iff_eq.mp this
    · rw [if_neg hst] at ha
      exact beq_iff_eq.mp (List.mem_filter.mp ha).2
  · intro hst a ha
    have hst' : (searchTerm != "") = true := bne_iff_ne.mpr hst
    simp only [filterAssets, hst', if_true] at ha
    have hsm : searchMatch searchTerm a = true := by
      by_cases hty : (selectedType != "all") = true
      · rw [if_pos hty] at ha
        exact (List.mem_filter.mp ha).2
      · rw [if_neg hty] at ha
        exact (List.mem_filter.mp ha).2
    unfold searchMatch at hsm
    rcases Bool.or_eq_true_iff.mp hsm with hname | hns
    · exact Or.inl hname
    · cases hmem : a.nspace with
      | none => rw [hmem] at hns; exact absurd hns (by simp)
      | some ns =>
        rw [hmem] at hns
        exact Or.inr ⟨ns, rfl, hns⟩
  · simp [filterAssets]

/-- Witness for C8 on a three-asset list: the kind filter retains only
Pods and the neutral filter returns the list unchanged. -/
theorem c8_filterAssets_witness :
    (("Pod" : String) ≠ "all") ∧
      (∀ a ∈ filterAssets [svcX, podX, podY] "" "Pod", a.kind = "Pod") ∧
      filterAssets [svcX, podX, podY] "" "all" = [svcX, podX, podY] :=
  ⟨by decide,
    (c8_filterAssets [svcX, podX, podY] "" "Pod").1 (by decide),
    (c8_filterAssets [svcX, podX, podY] "" "all").2.2⟩

/-- Claim C9: after any sequence of successful query executions the
history has no duplicates and at most ten entries; a new query is
prepended to the first nine old entries, and re-executing a known query
leaves the history unchanged. -/
theorem c9_history (qs : List String) (q : String) :
    (runQueries qs).Nodup ∧ (runQueries qs).length ≤ 10 ∧
    (q ∉ runQueries qs →
      updateHistory (runQueries qs) q = q :: (runQueries qs).take 9) ∧
    (q ∈ runQueries qs → updateHistory (runQueries qs) q = runQueries qs) := by
  have hinv := foldl_updateHistory_inv qs [] (by simp) (by simp)
  refine ⟨hinv.1, hinv.2, ?_, ?_⟩
  · intro hq
    have hc : (runQueries qs).contains q = false := by
      cases hcc : (runQueries qs).contains q
      · rfl
      · exact absurd (List.mem_of_elem_eq_true hcc) hq
    unfold updateHistory
    rw [hc]
    simp
  · intro hq
    have hc : (runQueries qs).contains q = true :=
      List.elem_eq_true_of_mem hq
    unfold updateHistory
    rw [hc]
    simp

/-- Claim C4: a kind whose listing fails contributes its error to the
record while every other kind's assets are still collected; one failing
kind never aborts the pass. -/
theorem c4_partial_failure (listKind : String → Except String (List Asset))
    (kinds : List String) (k₀ e : String)
    (hk : k₀ ∈ kinds) (he : listKind k₀ = .error e) :
    e ∈ (collect listKind kinds).errors ∧
      ∀ k ∈ kinds, ∀ as, listKind k = .ok as →
        ∀ a ∈ as, a ∈ (collect listKind kinds).assets := by
  constructor
  · simp only [collect, List.mem_filterMap]
    exact ⟨k₀, hk, by rw [he]⟩
  · intro k hkmem as hok a ha
    simp only [collect, List.mem_flatMap]
    exact ⟨k, hkmem, by rw [hok]; exact ha⟩

/-- Witness for C4: with Secret listing forbidden, the error is recorded
and the Pod and Service kinds are still collected. -/
theorem c4_partial_failure_witness :
    (("Secret" : String) ∈ ["Pod", "Service", "Secret"]) ∧
      listingFixture "Secret" = .error "permission denied" ∧
      ("permission denied" ∈
          (collect listingFixture ["Pod", "Service", "Secret"]).errors ∧
        ∀ k ∈ ["Pod", "Service", "Secret"], ∀ as, listingFixture k = .ok as →
          ∀ a ∈ as,
            a ∈ (collect listingFixture ["Pod", "Service", "Secret"]).assets) :=
  ⟨by decide, rfl,
    c4_partial_failure listingFixture ["Pod", "Service", "Secret"]
      "Secret" "permission denied" (by decide) rfl⟩

/-- Claim C7: the Asset produced for a Secret carries only the key names
of the data map; two Secrets agreeing on metadata and key names but
differing in credential values produce the same Asset, so no data value
is ever persisted. -/
theorem c7_secret_values (s₁ s₂ : K8sSecret)
    (hn : s₁.name = s₂.name) (hns : s₁.nspace = s₂.nspace)
    (hl : s₁.labels = s₂.labels) (han : s₁.annotations = s₂.annotations)
    (ht : s₁.secret_type = s₂.secret_type)
    (hc : s₁.created_at = s₂.created_at)
    (hk : s₁.data.map Prod.fst = s₂.data.map Prod.fst) :
    collectSecret s₁ = collectSecret s₂ ∧
      (collectSecret s₁).data_keys = some (s₁.data.map Prod.fst) := by
  constructor
  · unfold collectSecret
    rw [hn, hns, hl, han, ht, hc, hk]
  · rfl

/-- Witness for C7: two Secrets with identical key names and different
credential values normalize to the same Asset. -/
theorem c7_secret_values_witness :
    (secretA.data.map Prod.fst = secretB.data.map Prod.fst) ∧
      (collectSecret secretA = collectSecret secretB ∧
        (collectSecret secretA).data_keys =
          some (secretA.data.map Prod.fst)) :=
  ⟨by decide,
    c7_secret_values secretA secretB rfl rfl rfl rfl rfl rfl (by decide)⟩

/-- Every enumerated attack path starts at the name of a stored vertex. -/
theorem source_mem_of_mem_enumerate {vs : List Asset} {es : List Edge}
    {p : AttackPath} (hp : p ∈ enumerateAttackPaths vs es) :
    ∃ v ∈ vs, p.source = v.name := by
  unfold enumerateAttackPaths at hp
  rw [List.mem_filterMap] at hp
  obtain ⟨e, _, he⟩ := hp
  cases hsv : vs.find? (fun v => v.id == e.src) with
  | none =>
    rw [hsv] at he
    cases htv : vs.find? (fun v => v.id == e.dst) <;> rw [htv] at he <;>
      simp at he
  | some sv =>
    cases htv : vs.find? (fun v => v.id == e.dst) with
    | none =>
      rw [hsv, htv] at he
      simp at he
    | some tv =>
      rw [hsv, htv] at he
      simp only [Option.some.injEq] at he
      subst he
      exact ⟨sv, List.mem_of_find?_eq_some hsv, rfl⟩

/-- Claim C5: an attack-path request whose source filter names no vertex
returns the empty path list as a successful result, and the frontend
treats the empty list as a success outcome. -/
theorem c5_missing_source (vs : List Asset) (es : List Edge) (s : String)
    (tgt : Option String) (prev : List AttackPath)
    (h : ∀ v ∈ vs, v.name ≠ s) :
    getAttackPathsOp vs es (some s) tgt = .ok [] ∧
      fetchAttackPathsUpdate prev (getAttackPathsOp vs es (some s) tgt) =
        ([], .success) := by
  have hfil : (enumerateAttackPaths vs es).filter
      (fun p => optMatches (some s) p.source) = [] := by
    rw [List.filter_eq_nil_iff]
    intro p hp
    obtain ⟨v, hv, hps⟩ := source_mem_of_mem_enumerate hp
    simp [optMatches, hps, h v hv]
  have hop : getAttackPathsOp vs es (some s) tgt = .ok [] := by
    unfold getAttackPathsOp
    rw [hfil]
    rfl
  exact ⟨hop, by rw [hop]; rfl⟩

/-- Witness for C5 on a two-vertex graph with one edge: the ghost source
yields the empty list and a success message. -/
theorem c5_missing_source_witness :
    (∀ v ∈ [svcX, podX], v.name ≠ "ghost") ∧
      (getAttackPathsOp [svcX, podX]
          [{ src := svcX.id, dst := podX.id, label := .selects }]
          (some "ghost") none = .ok [] ∧
        fetchAttackPathsUpdate []
            (getAttackPathsOp [svcX, podX]
              [{ src := svcX.id, dst := podX.id, label := .selects }]
              (some "ghost") none) =
          ([], .success)) :=
  ⟨by decide,
    c5_missing_source [svcX, podX]
      [{ src := svcX.id, dst := podX.id, label := .selects }]
      "ghost" none [] (by decide)⟩

/-- Claim C2: upserting the same Asset twice with identical fields is
idempotent and leaves exactly one logical vertex carrying that Asset's
identifier, provided the store held at most one such vertex before. -/
theorem c2_upsert_idempotent (vs : List Asset) (v : Asset)
    (h : vs.countP (fun w => w.id == v.id) ≤ 1) :
    upsertVertex (upsertVertex vs v) v = upsertVertex vs v ∧
      (upsertVertex (upsertVertex vs v) v).countP
        (fun w => w.id == v.id) = 1 := by
  by_cases hany : vs.any (fun w => w.id == v.id) = true
  · have h1 : upsertVertex vs v =
        vs.map (fun w => if w.id == v.id then v else w) := by
      unfold upsertVertex
      rw [if_pos hany]
    have hself : (v.id == v.id) = true := by simp
    have hmapany : (vs.map (fun w => if w.id == v.id then v else w)).any
        (fun w => w.id == v.id) = true := by
      rw [List.any_eq_true] at hany ⊢
      obtain ⟨w, hw, hwp⟩ := hany
      refine ⟨v, List.mem_map.mpr ⟨w, hw, ?_⟩, hself⟩
      rw [if_pos hwp]
    have hcnt : (vs.map (fun w => if w.id == v.id then v else w)).countP
        (fun w => w.id == v.id) = vs.countP (fun w => w.id == v.id) := by
      rw [List.countP_map]
      refine List.countP_congr fun w _ => ?_
      by_cases hw : (w.id == v.id) = true
      · simp [Function.comp, hw, hself]
      · simp [Function.comp, hw]
    have hpos : 0 < vs.countP (fun w => w.id == v.id) := by
      rw [List.countP_pos_iff]
      rw [List.any_eq_true] at hany
      obtain ⟨w, hw, hwp⟩ := hany
      exact ⟨w, hw, hwp⟩
    have hone : vs.countP (fun w => w.id == v.id) = 1 := by omega
    have h2 : upsertVertex (upsertVertex vs v) v = upsertVertex vs v := by
      rw [h1]
      unfold upsertVertex
      rw [if_pos hmapany, List.map_map]
      refine List.map_congr_left fun w _ => ?_
      by_cases hw : (w.id == v.id) = true
      · simp [Function.comp, hw, hself]
      · simp [Function.comp, hw]
    refine ⟨h2, ?_⟩
    rw [h2, h1, hcnt, hone]
  · have h1 : upsertVertex vs v = vs ++ [v] := by
      unfold upsertVertex
      rw [if_neg hany]
    have hself : (v.id == v.id) = true := by simp
    have hanyf : vs.any (fun w => w.id == v.id) = false := by
      cases hx : vs.any (fun w => w.id == v.id)
      · rfl
      · exact absurd hx hany
    have hnone : ∀ w ∈ vs, ¬((fun w : Asset => w.id == v.id) w = true) :=
      fun w hw => (List.any_eq_false.mp hanyf) w hw
    have happany : (vs ++ [v]).any (fun w => w.id == v.id) = true := by
      rw [List.any_eq_true]
      exact ⟨v, List.mem_append_right vs (List.mem_singleton.mpr rfl), hself⟩
    have h2 : upsertVertex (upsertVertex vs v) v = upsertVertex vs v := by
      rw [h1]
      unfold upsertVertex
      rw [if_pos happany, List.map_append]
      have hl : vs.map (fun w => if w.id == v.id then v else w) = vs := by
        have : vs.map (fun w => if w.id == v.id then v else w) =
            vs.map id := by
          refine List.map_congr_left fun w hw => ?_
          rw [if_neg (hnone w hw), id]
        rw [this, List.map_id]
      have hr : ([v] : List Asset).map
          (fun w => if w.id == v.id then v else w) = [v] := by
        simp [hself]
      rw [hl, hr]
    refine ⟨h2, ?_⟩
    rw [h2, h1, List.countP_append]
    have hz : vs.countP (fun w => w.id == v.id) = 0 :=
      List.countP_eq_zero.mpr hnone
    rw [hz]
    simp [hself]

/-- Witness for C2: upserting the app-x Pod twice into a one-vertex
store yields the store of one upsert with a single such vertex. -/
theorem c2_upsert_idempotent_witness :
    ([podY].countP (fun w => w.id == podX.id) ≤ 1) ∧
      (upsertVertex (upsertVertex [podY] podX) podX =
          upsertVertex [podY] podX ∧
        (upsertVertex (upsertVertex [podY] podX) podX).countP
          (fun w => w.id == podX.id) = 1) :=
  ⟨by decide, c2_upsert_idempotent [podY] podX (by decide)⟩

/-- Claim C6: every edge the builder derives carries a label drawn from
the fixed eight-element vocabulary. -/
theorem c6_edge_vocab (batch : List Asset) (e : Edge)
    (_he : e ∈ buildEdges batch) :
    edgeLabelStr e.label ∈ edgeLabelVocab ∧
      edgeLabelVocab.length = 8 ∧ edgeLabelVocab.Nodup := by
  refine ⟨?_, by decide, by decide⟩
  have hall : ∀ l : EdgeLabel, edgeLabelStr l ∈ edgeLabelVocab := by
    intro l
    cases l <;> decide
  exact hall e.label

/-- Witness for C6: the runs_on edge the builder derives from the Pod
fixture carries a vocabulary label. -/
theorem c6_edge_vocab_witness :
    (({ src := podX.id, dst := nodeOne.id, label := .runs_on } : Edge) ∈
        buildEdges [svcX, podX, podY, nodeOne]) ∧
      (edgeLabelStr EdgeLabel.runs_on ∈ edgeLabelVocab ∧
        edgeLabelVocab.length = 8 ∧ edgeLabelVocab.Nodup) :=
  ⟨by decide,
    c6_edge_vocab [svcX, podX, podY, nodeOne]
      { src := podX.id, dst := nodeOne.id, label := .runs_on } (by decide)⟩

/-- One asset's derived edges are permuted when the batch is permuted. -/
theorem edgesForAsset_perm (a : Asset) {b b' : List Asset}
    (h : b.Perm b') : (edgesForAsset a b).Perm (edgesForAsset a b') := by
  unfold edgesForAsset runsOnEdges usesEdges selectsEdges inNamespaceEdges
    referencesEdges grantsToEdges
  exact (((((((h.filter _).map _).append ((h.filter _).map _)).append
    ((h.filter _).map _)).append ((h.filter _).map _)).append
    ((h.filter _).map _)).append ((h.filter _).map _))

/-- Claim C3: the derived edge set is a deterministic function of the
batch, independent of iteration order: permuted batches yield permuted
(hence equal as sets) edge lists, and an unchanged batch trivially
yields the identical edge list. -/
theorem c3_deterministic (b b' : List Asset) (h : b.Perm b') :
    (buildEdges b).Perm (buildEdges b') := by
  unfold buildEdges
  exact (List.Perm.flatMap_left b fun a _ => edgesForAsset_perm a h).trans
    (List.Perm.flatMap_right _ h)

/-- Witness for C3 on a two-asset batch and its reversal. -/
theorem c3_deterministic_witness :
    ([svcX, podX].Perm [podX, svcX]) ∧
      (buildEdges [svcX, podX]).Perm (buildEdges [podX, svcX]) :=
  ⟨by decide, c3_deterministic [svcX, podX] [podX, svcX] (by decide)⟩

/-- Every derived edge leaves from the asset it was derived for. -/
theorem src_of_mem_edgesForAsset {e : Edge} {a : Asset}
    {batch : List Asset} (he : e ∈ edgesForAsset a batch) : e.src = a.id := by
  unfold edgesForAsset runsOnEdges usesEdges selectsEdges inNamespaceEdges
    referencesEdges grantsToEdges at he
  simp only [List.mem_append, List.mem_map, List.mem_filter] at he
  rcases he with ((((⟨b, -, hfb⟩ | ⟨b, -, hfb⟩) | ⟨b, -, hfb⟩) |
      ⟨b, -, hfb⟩) | ⟨b, -, hfb⟩) | ⟨b, -, hfb⟩ <;> subst hfb <;> rfl

/-- A derived selects edge comes from the selector-match rule: its
source is a selector-carrying Service or Deployment and its target a Pod
whose labels match. -/
theorem mem_selects_inv {e : Edge} {a : Asset} {batch : List Asset}
    (he : e ∈ edgesForAsset a batch) (hl : e.label = .selects) :
    ∃ b ∈ batch,
      ((a.kind == "Service" || a.kind == "Deployment") && b.kind == "Pod" &&
          selectorMatches a b) = true ∧
        e = { src := a.id, dst := b.id, label := .selects } := by
  unfold edgesForAsset runsOnEdges usesEdges selectsEdges inNamespaceEdges
    referencesEdges grantsToEdges at he
  simp only [List.mem_append, List.mem_map, List.mem_filter] at he
  rcases he with ((((⟨b, -, hfb⟩ | ⟨b, -, hfb⟩) | ⟨b, hb, hfb⟩) |
      ⟨b, -, hfb⟩) | ⟨b, -, hfb⟩) | ⟨b, -, hfb⟩
  · subst hfb; simp at hl
  · subst hfb; simp at hl
  · subst hfb; exact ⟨b, hb.1, hb.2, rfl⟩
  · subst hfb; simp at hl
  · subst hfb; simp at hl
  · subst hfb; simp at hl

/-- The selector match is exactly the superset condition on label maps. -/
theorem matchesSelector_iff (sel labels : List (String × String)) :
    matchesSelector sel labels = true ↔
      ∀ kv ∈ sel, labels.lookup kv.1 = some kv.2 := by
  unfold matchesSelector
  rw [List.all_eq_true]
  constructor
  · exact fun hall kv hkv => beq_iff_eq.mp (hall kv hkv)
  · exact fun hforall kv hkv => beq_iff_eq.mpr (hforall kv hkv)

/-- Claim C1: for a selector-carrying Service (or Deployment) and a Pod
in a batch of distinct identifiers, the builder derives the selects edge
exactly when the Pod's label map is a superset of the selector map. -/
theorem c1_selector_edge (batch : List Asset) (S P : Asset)
    (sel : List (String × String))
    (hS : S ∈ batch) (hP : P ∈ batch)
    (hkind : S.kind = "Service" ∨ S.kind = "Deployment")
    (hPk : P.kind = "Pod") (hsel : S.selector = some sel)
    (hids : (batch.map Asset.id).Nodup) :
    ({ src := S.id, dst := P.id, label := .selects } : Edge) ∈
        buildEdges batch ↔
      ∀ kv ∈ sel, P.labels.lookup kv.1 = some kv.2 := by
  constructor
  · intro hmem
    unfold buildEdges at hmem
    rw [List.mem_flatMap] at hmem
    obtain ⟨a, ha, hae⟩ := hmem
    have hsrc : S.id = a.id := src_of_mem_edgesForAsset hae
    have haS : a = S := List.inj_on_of_nodup_map hids ha hS hsrc.symm
    subst haS
    obtain ⟨b, hbmem, hq, heq⟩ := mem_selects_inv hae rfl
    have hdst : P.id = b.id := congrArg Edge.dst heq
    have hbP : b = P := List.inj_on_of_nodup_map hids hbmem hP hdst.symm
    subst hbP
    have hsm : selectorMatches a b = true := by
      simp only [Bool.and_eq_true] at hq
      exact hq.2
    unfold selectorMatches at hsm
    rw [hsel] at hsm
    exact (matchesSelector_iff sel b.labels).mp hsm
  · intro hsup
    unfold buildEdges
    rw [List.mem_flatMap]
    refine ⟨S, hS, ?_⟩
    unfold edgesForAsset
    refine List.mem_append.mpr (Or.inl (List.mem_append.mpr (Or.inl
      (List.mem_append.mpr (Or.inl (List.mem_append.mpr (Or.inr ?_)))))))
    unfold selectsEdges
    rw [List.mem_map]
    refine ⟨P, List.mem_filter.mpr ⟨hP, ?_⟩, rfl⟩
    have h1 : (S.kind == "Service" || S.kind == "Deployment") = true := by
      rcases hkind with h | h <;> simp [h]
    have h2 : (P.kind == "Pod") = true := by simp [hPk]
    have h3 : selectorMatches S P = true := by
      unfold selectorMatches
      rw [hsel]
      exact (matchesSelector_iff sel P.labels).mpr hsup
    simp [h1, h2, h3]

/-- Witness for C1 at the spec's example: the app-x Service selects the
Pod labeled app x and env prod, and not the Pod labeled app y. -/
theorem c1_selector_edge_witness :
    (svcX.selector = some [("app", "x")]) ∧
      (({ src := svcX.id, dst := podX.id, label := .selects } : Edge) ∈
          buildEdges [svcX, podX, podY, nodeOne] ↔
        ∀ kv ∈ [("app", "x")], podX.labels.lookup kv.1 = some kv.2) ∧
      (({ src := svcX.id, dst := podY.id, label := .selects } : Edge) ∈
          buildEdges [svcX, podX, podY, nodeOne] ↔
        ∀ kv ∈ [("app", "x")], podY.labels.lookup kv.1 = some kv.2) :=
  ⟨rfl,
    c1_selector_edge [svcX, podX, podY, nodeOne] svcX podX [("app", "x")]
      (by decide) (by decide) (Or.inl rfl) rfl rfl (by decide),
    c1_selector_edge [svcX, podX, podY, nodeOne] svcX podY [("app", "x")]
      (by decide) (by decide) (Or.inl rfl) rfl rfl (by decide)⟩

/-- Witness for C9 after executing a, b, a: a new query c is prepended
and re-executing b changes nothing. -/
theorem c9_history_witness :
    (("c" : String) ∉ runQueries ["a", "b", "a"]) ∧
      (("b" : String) ∈ runQueries ["a", "b", "a"]) ∧
      updateHistory (runQueries ["a", "b", "a"]) "c" =
        "c" :: (runQueries ["a", "b", "a"]).take 9 ∧
      updateHistory (runQueries ["a", "b", "a"]) "b" =
        runQueries ["a", "b", "a"] :=
  ⟨by decide, by decide,
    (c9_history ["a", "b", "a"] "c").2.2.1 (by decide),
    (c9_history ["a", "b", "a"] "b").2.2.2 (by decide)⟩

end JanusK8s
